import Mathlib

/-!
Verification of the grade-analysis app (`src/app.py`).

The development shallowly embeds the parts of the program the claims are
about:

* the format-preserving Excel writer `update_excel_formatting`
  (app.py lines 97-129), modelled over an explicit worksheet grid of
  styled cells (openpyxl's sheet model: `ws.cell(row, col).value = v`
  overwrites only the value and leaves the style in place;
  `ws.delete_rows` removes whole rows together with their styles;
  `ws.max_row` is the highest row holding content);
* the chart x-range computation of `draw_chart` (app.py lines 66-68);
* the failing / excellent threshold counters (app.py lines 221-225);
* the numeric-column classifier of the column-selection loop
  (app.py lines 150-161);
* the per-interaction control flow around the export and the
  chart/statistics block (app.py lines 186-247).

Sheets are `List (List Cell)`: list index `i` is 1-based sheet row
`i + 1`, and inside a row list index `j` is 1-based sheet column `j + 1`.
A position outside the stored grid reads as an absent cell
(`defaultCell`), matching openpyxl's sparse grid where untouched cells
have the default (empty value, default style) state.
-/

namespace GradeApp

/-- A cell value: number, text, or empty/missing (the spec's data model;
pandas renders missing cells as NaN, openpyxl as `None`). -/
inductive Value where
  | num : Int → Value
  | text : String → Value
  | empty : Value
deriving DecidableEq, Repr

/-- A styled cell: a value paired with an opaque style reference. -/
structure Cell where
  value : Value
  style : Nat
deriving DecidableEq, Repr

/-- The state of a grid position no cell was ever written to: empty value,
default style reference `0`. -/
def defaultCell : Cell := { value := Value.empty, style := 0 }

/-- A worksheet: rows of styled cells. `ws.length` plays the role of
openpyxl's `ws.max_row` (the highest row with content). -/
abbrev Worksheet := List (List Cell)

/-- Extend a row with absent cells so that it has length at least `n`. -/
def padRow (row : List Cell) (n : Nat) : List Cell :=
  row ++ List.replicate (n - row.length) defaultCell

/-- `setRowCell row j v`: overwrite the value of the cell at 0-based
column `j`, materialising the cell (with the default style) if the row
did not reach that far; the style of an existing cell is untouched.
This is the row-level part of `ws.cell(row=·, column=j+1).value = v`. -/
def setRowCell (row : List Cell) (j : Nat) (v : Value) : List Cell :=
  let r := padRow row (j + 1)
  r.set j { r.getD j defaultCell with value := v }

/-- Extend a sheet with empty rows so that it has at least `n` rows. -/
def padSheet (ws : Worksheet) (n : Nat) : Worksheet :=
  ws ++ List.replicate (n - ws.length) ([] : List Cell)

/-- `setSheetCell ws i j v`: openpyxl's
`ws.cell(row=i+1, column=j+1).value = v` — overwrite only the value at
0-based position `(i, j)`, creating the row/cell if absent. -/
def setSheetCell (ws : Worksheet) (i j : Nat) (v : Value) : Worksheet :=
  let w := padSheet ws (i + 1)
  w.set i (setRowCell (w.getD i []) j v)

/-- The inner loop of app.py lines 114-116: write the values `vs` into
0-based row `i` starting at 0-based column `j`. -/
def writeVals (ws : Worksheet) (i j : Nat) : List Value → Worksheet
  | [] => ws
  | v :: vs => writeVals (setSheetCell ws i j v) i (j + 1) vs

/-- The outer loop of app.py lines 112-116: write the data rows starting
at 0-based sheet row `i` (the call site uses `i = 1`, sheet row 2). -/
def writeRows (ws : Worksheet) (i : Nat) : List (List Value) → Worksheet
  | [] => ws
  | r :: rs => writeRows (writeVals ws i 0 r) (i + 1) rs

/-- openpyxl's `ws.delete_rows(start, amount)`: remove the `amount` rows
beginning at 1-based row `start`, together with their styles; later rows
shift up. -/
def delete_rows (ws : Worksheet) (start amount : Nat) : Worksheet :=
  ws.take (start - 1) ++ ws.drop (start - 1 + amount)

/-- An in-memory table: named columns and rows of values
(`df_new.values.tolist()` yields exactly `rows`). -/
structure Table where
  cols : List String
  rows : List (List Value)
deriving DecidableEq, Repr

/-- The sheet-level core of `update_excel_formatting` (app.py lines
109-123): write each edited row `row_idx` into sheet row `row_idx + 2`
column by column, then, when the old content reaches beyond the new data
(`current_max_row > len(data_rows) + 1`), delete the trailing rows. -/
def update_excel_formatting (df_new : Table) (ws : Worksheet) : Worksheet :=
  let ws1 := writeRows ws 1 df_new.rows
  let current_max_row := ws1.length
  let new_data_count := df_new.rows.length + 1
  if current_max_row > new_data_count then
    delete_rows ws1 (new_data_count + 1) (current_max_row - new_data_count)
  else ws1

/-- Row at 0-based index `i` (absent rows read as empty). -/
def getRow (ws : Worksheet) (i : Nat) : List Cell := ws.getD i []

/-- Cell at 0-based position `(i, j)` (absent positions read as
`defaultCell`). -/
def getCell (ws : Worksheet) (i j : Nat) : Cell :=
  (getRow ws i).getD j defaultCell

/-- Value of the cell at 1-based sheet position `(r, c)`. -/
def cellValue (ws : Worksheet) (r c : Nat) : Value :=
  (getCell ws (r - 1) (c - 1)).value

/-- Style reference of the cell at 1-based sheet position `(r, c)`. -/
def cellStyle (ws : Worksheet) (r c : Nat) : Nat :=
  (getCell ws (r - 1) (c - 1)).style

/-- Read the sheet back as table data (TableLoader's view): every row
after the header row 1, values in sheet order. -/
def loadRows (ws : Worksheet) : List (List Value) :=
  (ws.drop 1).map (fun r => r.map Cell.value)

/-! ### Generic list lemmas

Padding with the default element and reading with that same default are
inverse in the `getD` view; `set` changes exactly one position. -/

theorem getD_append_replicate {α : Type} (l : List α) (n j : Nat) (d : α) :
    (l ++ List.replicate n d).getD j d = l.getD j d := by
  induction l generalizing j with
  | nil =>
    simp only [List.nil_append, List.getD_nil]
    induction n generalizing j with
    | zero => simp
    | succ m ih =>
      cases j with
      | zero => simp [List.replicate_succ]
      | succ j' => simp [List.replicate_succ, ih]
  | cons a as ih =>
    cases j with
    | zero => rfl
    | succ j' =>
      simp only [List.cons_append, List.getD_cons_succ]
      exact ih j'

theorem getD_set_self {α : Type} (l : List α) (i : Nat) (a d : α)
    (h : i < l.length) : (l.set i a).getD i d = a := by
  simp [List.getD_eq_getElem?_getD, List.getElem?_set_self h]

theorem getD_set_ne {α : Type} (l : List α) (i k : Nat) (a d : α)
    (h : i ≠ k) : (l.set i a).getD k d = l.getD k d := by
  simp [List.getD_eq_getElem?_getD, List.getElem?_set_ne h]

theorem getD_take_lt {α : Type} (l : List α) (n j : Nat) (d : α)
    (h : j < n) : (l.take n).getD j d = l.getD j d := by
  simp [List.getD_eq_getElem?_getD, List.getElem?_take_of_lt h]

theorem length_pad {α : Type} (l : List α) (n : Nat) (d : α) :
    (l ++ List.replicate (n - l.length) d).length = max l.length n := by
  simp
  omega

/-! ### One-cell writes -/

theorem getD_padRow (row : List Cell) (n j : Nat) :
    (padRow row n).getD j defaultCell = row.getD j defaultCell :=
  getD_append_replicate row _ j defaultCell

theorem length_padRow (row : List Cell) (n : Nat) :
    (padRow row n).length = max row.length n :=
  length_pad row n defaultCell

theorem length_setRowCell (row : List Cell) (j : Nat) (v : Value) :
    (setRowCell row j v).length = max row.length (j + 1) := by
  simp [setRowCell, length_padRow]

theorem getD_setRowCell_self (row : List Cell) (j : Nat) (v : Value) :
    (setRowCell row j v).getD j defaultCell =
      { value := v, style := (row.getD j defaultCell).style } := by
  unfold setRowCell
  rw [getD_set_self _ _ _ _ (by rw [length_padRow]; omega), getD_padRow]

theorem getD_setRowCell_ne (row : List Cell) (j k : Nat) (v : Value)
    (h : j ≠ k) :
    (setRowCell row j v).getD k defaultCell = row.getD k defaultCell := by
  unfold setRowCell
  rw [getD_set_ne _ _ _ _ _ h, getD_padRow]

theorem style_setRowCell (row : List Cell) (j k : Nat) (v : Value) :
    ((setRowCell row j v).getD k defaultCell).style =
      (row.getD k defaultCell).style := by
  by_cases h : j = k
  · subst h; rw [getD_setRowCell_self]
  · rw [getD_setRowCell_ne _ _ _ _ h]

theorem getD_padSheet (ws : Worksheet) (n i : Nat) :
    (padSheet ws n).getD i [] = ws.getD i [] :=
  getD_append_replicate ws _ i []

theorem length_padSheet (ws : Worksheet) (n : Nat) :
    (padSheet ws n).length = max ws.length n :=
  length_pad ws n []

theorem length_setSheetCell (ws : Worksheet) (i j : Nat) (v : Value) :
    (setSheetCell ws i j v).length = max ws.length (i + 1) := by
  simp [setSheetCell, length_padSheet]

theorem getRow_setSheetCell_self (ws : Worksheet) (i j : Nat) (v : Value) :
    getRow (setSheetCell ws i j v) i = setRowCell (getRow ws i) j v := by
  unfold getRow setSheetCell
  rw [getD_set_self _ _ _ _ (by rw [length_padSheet]; omega), getD_padSheet]

theorem getRow_setSheetCell_ne (ws : Worksheet) (i k j : Nat) (v : Value)
    (h : i ≠ k) :
    getRow (setSheetCell ws i j v) k = getRow ws k := by
  unfold getRow setSheetCell
  rw [getD_set_ne _ _ _ _ _ h, getD_padSheet]

theorem getCell_setSheetCell_self (ws : Worksheet) (i j : Nat) (v : Value) :
    getCell (setSheetCell ws i j v) i j =
      { value := v, style := (getCell ws i j).style } := by
  unfold getCell
  rw [getRow_setSheetCell_self, getD_setRowCell_self]

theorem getCell_setSheetCell_ne (ws : Worksheet) (i j k l : Nat) (v : Value)
    (h : i ≠ k ∨ j ≠ l) :
    getCell (setSheetCell ws i j v) k l = getCell ws k l := by
  unfold getCell
  by_cases hik : i = k
  · subst hik
    rw [getRow_setSheetCell_self, getD_setRowCell_ne]
    exact h.resolve_left (by simp)
  · rw [getRow_setSheetCell_ne _ _ _ _ _ hik]

theorem style_setSheetCell (ws : Worksheet) (i j k l : Nat) (v : Value) :
    (getCell (setSheetCell ws i j v) k l).style = (getCell ws k l).style := by
  by_cases hik : i = k
  · subst hik
    by_cases hjl : j = l
    · subst hjl; rw [getCell_setSheetCell_self]
    · rw [getCell_setSheetCell_ne _ _ _ _ _ _ (Or.inr hjl)]
  · rw [getCell_setSheetCell_ne _ _ _ _ _ _ (Or.inl hik)]

/-! ### The inner write loop -/

theorem style_writeVals (i : Nat) :
    ∀ (vs : List Value) (ws : Worksheet) (j k l : Nat),
      (getCell (writeVals ws i j vs) k l).style = (getCell ws k l).style
  | [], _, _, _, _ => rfl
  | v :: rest, ws, j, k, l => by
    simp only [writeVals]
    rw [style_writeVals i rest _ (j + 1) k l, style_setSheetCell]

theorem getRow_writeVals_ne (i : Nat) :
    ∀ (vs : List Value) (ws : Worksheet) (j k : Nat), i ≠ k →
      getRow (writeVals ws i j vs) k = getRow ws k
  | [], _, _, _, _ => rfl
  | v :: rest, ws, j, k, h => by
    simp only [writeVals]
    rw [getRow_writeVals_ne i rest _ (j + 1) k h,
      getRow_setSheetCell_ne _ _ _ _ _ h]

theorem getCell_writeVals_lt (i l : Nat) :
    ∀ (vs : List Value) (ws : Worksheet) (j : Nat), l < j →
      getCell (writeVals ws i j vs) i l = getCell ws i l
  | [], _, _, _ => rfl
  | v :: rest, ws, j, h => by
    simp only [writeVals]
    rw [getCell_writeVals_lt i l rest _ (j + 1) (by omega),
      getCell_setSheetCell_ne _ _ _ _ _ _ (Or.inr (by omega))]

theorem getCell_writeVals_value (i : Nat) :
    ∀ (vs : List Value) (ws : Worksheet) (j k : Nat), k < vs.length →
      (getCell (writeVals ws i j vs) i (j + k)).value = vs.getD k Value.empty
  | [], _, _, k, h => absurd h (by simp)
  | v :: rest, ws, j, 0, _ => by
    simp only [writeVals, Nat.add_zero, List.getD_cons_zero]
    rw [getCell_writeVals_lt i j rest _ (j + 1) (by omega),
      getCell_setSheetCell_self]
  | v :: rest, ws, j, k + 1, h => by
    simp only [writeVals, List.getD_cons_succ]
    have he : j + (k + 1) = (j + 1) + k := by omega
    rw [he]
    exact getCell_writeVals_value i rest _ (j + 1) k
      (by simp only [List.length_cons] at h; omega)

theorem length_writeVals (i : Nat) :
    ∀ (vs : List Value) (ws : Worksheet) (j : Nat), i < ws.length →
      (writeVals ws i j vs).length = ws.length
  | [], _, _, _ => rfl
  | v :: rest, ws, j, h => by
    simp only [writeVals]
    have h2 : (setSheetCell ws i j v).length = ws.length := by
      rw [length_setSheetCell]; omega
    rw [length_writeVals i rest _ (j + 1) (by rw [h2]; exact h)]
    exact h2

theorem length_getRow_writeVals (i : Nat) :
    ∀ (vs : List Value) (ws : Worksheet) (j : Nat), vs ≠ [] →
      j + vs.length ≤ (getRow (writeVals ws i j vs) i).length
  | [], _, _, h => absurd rfl h
  | v :: rest, ws, j, _ => by
    simp only [writeVals]
    by_cases hr : rest = []
    · subst hr
      simp only [writeVals, List.length_cons, List.length_nil]
      rw [getRow_setSheetCell_self, length_setRowCell]
      have := Nat.le_max_right (getRow ws i).length (j + 1)
      omega
    · have hb := length_getRow_writeVals i rest (setSheetCell ws i j v)
        (j + 1) hr
      simp only [List.length_cons]
      omega

/-! ### The outer write loop -/

theorem style_writeRows :
    ∀ (rs : List (List Value)) (ws : Worksheet) (i k l : Nat),
      (getCell (writeRows ws i rs) k l).style = (getCell ws k l).style
  | [], _, _, _, _ => rfl
  | r :: rest, ws, i, k, l => by
    simp only [writeRows]
    rw [style_writeRows rest _ (i + 1) k l, style_writeVals i r _ 0 k l]

theorem getRow_writeRows_lt :
    ∀ (rs : List (List Value)) (ws : Worksheet) (i k : Nat), k < i →
      getRow (writeRows ws i rs) k = getRow ws k
  | [], _, _, _, _ => rfl
  | r :: rest, ws, i, k, h => by
    simp only [writeRows]
    rw [getRow_writeRows_lt rest _ (i + 1) k (by omega),
      getRow_writeVals_ne i r _ 0 k (by omega)]

theorem getCell_writeRows_value :
    ∀ (rs : List (List Value)) (ws : Worksheet) (i k j : Nat),
      k < rs.length → j < (rs.getD k []).length →
      (getCell (writeRows ws i rs) (i + k) j).value =
        (rs.getD k []).getD j Value.empty
  | [], _, _, k, _, h, _ => absurd h (by simp)
  | r :: rest, ws, i, 0, j, _, hj => by
    simp only [List.getD_cons_zero] at hj ⊢
    simp only [writeRows, Nat.add_zero]
    show (getCell (writeRows (writeVals ws i 0 r) (i + 1) rest) i j).value = _
    unfold getCell
    rw [getRow_writeRows_lt rest _ (i + 1) i (by omega)]
    have := getCell_writeVals_value i r ws 0 j hj
    simpa [getCell] using this
  | r :: rest, ws, i, k + 1, j, hk, hj => by
    simp only [List.getD_cons_succ] at hj ⊢
    simp only [writeRows]
    have he : i + (k + 1) = (i + 1) + k := by omega
    rw [he]
    exact getCell_writeRows_value rest _ (i + 1) k j
      (by simp only [List.length_cons] at hk; omega) hj

theorem length_writeRows :
    ∀ (rs : List (List Value)) (ws : Worksheet) (i : Nat),
      i + rs.length ≤ ws.length → (writeRows ws i rs).length = ws.length
  | [], _, _, _ => rfl
  | r :: rest, ws, i, h => by
    simp only [writeRows]
    simp only [List.length_cons] at h
    have h2 : (writeVals ws i 0 r).length = ws.length :=
      length_writeVals i r ws 0 (by omega)
    rw [length_writeRows rest _ (i + 1) (by omega), h2]

theorem length_getRow_writeRows :
    ∀ (rs : List (List Value)) (ws : Worksheet) (i k : Nat), k < rs.length →
      (rs.getD k []).length ≤ (getRow (writeRows ws i rs) (i + k)).length
  | [], _, _, k, h => absurd h (by simp)
  | r :: rest, ws, i, 0, _ => by
    simp only [writeRows, Nat.add_zero, List.getD_cons_zero]
    rw [getRow_writeRows_lt rest _ (i + 1) i (by omega)]
    by_cases hr : r = []
    · subst hr; simp
    · have := length_getRow_writeVals i r ws 0 hr
      omega
  | r :: rest, ws, i, k + 1, h => by
    simp only [writeRows, List.getD_cons_succ]
    have he : i + (k + 1) = (i + 1) + k := by omega
    rw [he]
    exact length_getRow_writeRows rest _ (i + 1) k
      (by simp only [List.length_cons] at h; omega)

/-! ### The writer as a whole -/

theorem length_update_excel (T : Table) (ws : Worksheet)
    (h : T.rows.length + 1 ≤ ws.length) :
    (update_excel_formatting T ws).length = T.rows.length + 1 := by
  have h1 : (writeRows ws 1 T.rows).length = ws.length :=
    length_writeRows T.rows ws 1 (by omega)
  simp only [update_excel_formatting, delete_rows]
  by_cases hc : (writeRows ws 1 T.rows).length > T.rows.length + 1
  · rw [if_pos hc]
    simp only [List.length_append, List.length_take, List.length_drop]
    omega
  · rw [if_neg hc]
    omega

theorem getRow_update_excel (T : Table) (ws : Worksheet) (i : Nat)
    (h : i < T.rows.length + 1) :
    getRow (update_excel_formatting T ws) i =
      getRow (writeRows ws 1 T.rows) i := by
  simp only [update_excel_formatting, delete_rows]
  by_cases hc : (writeRows ws 1 T.rows).length > T.rows.length + 1
  · rw [if_pos hc]
    unfold getRow
    have e1 : T.rows.length + 1 + 1 - 1 = T.rows.length + 1 := by omega
    rw [e1]
    have e2 : T.rows.length + 1 +
        ((writeRows ws 1 T.rows).length - (T.rows.length + 1)) =
        (writeRows ws 1 T.rows).length := by omega
    rw [e2, List.drop_length, List.append_nil]
    exact getD_take_lt _ _ _ _ h
  · rw [if_neg hc]

theorem getCell_update_value (T : Table) (D : Worksheet) (i j : Nat)
    (hi : i < T.rows.length) (hj : j < (T.rows.getD i []).length) :
    (getCell (update_excel_formatting T D) (i + 1) j).value =
      (T.rows.getD i []).getD j Value.empty := by
  have h1 : getCell (update_excel_formatting T D) (i + 1) j =
      getCell (writeRows D 1 T.rows) (i + 1) j := by
    unfold getCell
    rw [getRow_update_excel T D (i + 1) (by omega)]
  rw [h1]
  have h2 := getCell_writeRows_value T.rows D 1 i j hi hj
  have e : 1 + i = i + 1 := Nat.add_comm 1 i
  rw [e] at h2
  exact h2

theorem getD_drop {α : Type} (l : List α) (n j : Nat) (d : α) :
    (l.drop n).getD j d = l.getD (n + j) d := by
  simp [List.getD_eq_getElem?_getD, List.getElem?_drop]

/-! ### Concrete fixtures -/

/-- A concrete original sheet: a header row and two styled data rows. -/
def sampleSheet : Worksheet :=
  [[{ value := Value.text "A", style := 3 }, { value := Value.text "B", style := 4 }],
   [{ value := Value.num 1, style := 5 }, { value := Value.num 2, style := 6 }],
   [{ value := Value.num 9, style := 7 }, { value := Value.num 8, style := 8 }]]

/-- A concrete edited table with one data row (fewer than `sampleSheet`). -/
def sampleTable : Table :=
  { cols := ["A", "B"], rows := [[Value.num 10, Value.num 20]] }

/-! ### Claims about the writer -/

/-- C1: value fidelity of the format-preserving writer. For every edited
table whose rows all have the table's column count `C` and every original
sheet with at least `|rows|` data rows, the output holds
`edited.rows[i][j]` at sheet position `(row = i + 2, col = j + 1)`, the
output has exactly `|rows|` data rows, and reading those rows back as a
table returns the edited values in the same row/column order. -/
theorem C1_value_fidelity (T : Table) (D : Worksheet)
    (hshape : ∀ r ∈ T.rows, r.length = T.cols.length)
    (hrows : T.rows.length + 1 ≤ D.length) :
    (∀ i < T.rows.length, ∀ j < T.cols.length,
        cellValue (update_excel_formatting T D) (i + 2) (j + 1) =
          (T.rows.getD i []).getD j Value.empty) ∧
    (loadRows (update_excel_formatting T D)).length = T.rows.length ∧
    (∀ i < T.rows.length,
        ((loadRows (update_excel_formatting T D)).getD i []).take
            T.cols.length =
          T.rows.getD i []) := by
  have hout_len : (update_excel_formatting T D).length = T.rows.length + 1 :=
    length_update_excel T D hrows
  have hcell : ∀ i < T.rows.length, ∀ j < T.cols.length,
      cellValue (update_excel_formatting T D) (i + 2) (j + 1) =
        (T.rows.getD i []).getD j Value.empty := by
    intro i hi j hj
    have hmem : T.rows.getD i [] ∈ T.rows := by
      rw [List.getD_eq_getElem _ _ hi]
      exact List.getElem_mem hi
    have hC : (T.rows.getD i []).length = T.cols.length := hshape _ hmem
    show (getCell (update_excel_formatting T D) (i + 1) j).value = _
    exact getCell_update_value T D i j hi (by omega)
  refine ⟨hcell, ?_, ?_⟩
  · simp [loadRows, hout_len]
  · intro i hi
    have hmem : T.rows.getD i [] ∈ T.rows := by
      rw [List.getD_eq_getElem _ _ hi]
      exact List.getElem_mem hi
    have hC : (T.rows.getD i []).length = T.cols.length := hshape _ hmem
    have hrowchar : (loadRows (update_excel_formatting T D)).getD i [] =
        (getRow (update_excel_formatting T D) (i + 1)).map Cell.value := by
      show (((update_excel_formatting T D).drop 1).map
          (fun r => r.map Cell.value)).getD i (List.map Cell.value []) =
        (getRow (update_excel_formatting T D) (i + 1)).map Cell.value
      rw [List.getD_map, getD_drop]
      rw [Nat.add_comm 1 i]
      rfl
    rw [hrowchar]
    have hrowW : getRow (update_excel_formatting T D) (i + 1) =
        getRow (writeRows D 1 T.rows) (i + 1) :=
      getRow_update_excel T D (i + 1) (by omega)
    have hRlen : (T.rows.getD i []).length ≤
        (getRow (writeRows D 1 T.rows) (i + 1)).length := by
      have hb := length_getRow_writeRows T.rows D 1 i hi
      rw [Nat.add_comm 1 i] at hb
      exact hb
    apply List.ext_getElem
    · simp only [List.length_take, List.length_map, hrowW]
      omega
    · intro n h1 h2
      rw [List.getElem_take, List.getElem_map]
      have hn : n < T.cols.length := by
        simp only [List.length_take, List.length_map] at h1
        omega
      have hnr : n < (getRow (update_excel_formatting T D) (i + 1)).length := by
        rw [hrowW]; omega
      have hv : (getRow (update_excel_formatting T D) (i + 1))[n] =
          (getRow (update_excel_formatting T D) (i + 1)).getD n defaultCell :=
        (List.getD_eq_getElem _ _ hnr).symm
      rw [hv]
      have hval := getCell_update_value T D i n hi (by rw [hC]; exact hn)
      show (getCell (update_excel_formatting T D) (i + 1) n).value = _
      rw [hval]
      exact List.getD_eq_getElem (T.rows.getD i []) Value.empty
        (by rw [hC]; exact hn)

/-- Witness for C1 at the concrete fixtures: one edited data row written
into a two-data-row sheet. -/
theorem C1_value_fidelity_witness :
    (∀ r ∈ sampleTable.rows, r.length = sampleTable.cols.length) ∧
    sampleTable.rows.length + 1 ≤ sampleSheet.length ∧
    ((∀ i < sampleTable.rows.length, ∀ j < sampleTable.cols.length,
        cellValue (update_excel_formatting sampleTable sampleSheet)
            (i + 2) (j + 1) =
          (sampleTable.rows.getD i []).getD j Value.empty) ∧
      (loadRows (update_excel_formatting sampleTable sampleSheet)).length =
        sampleTable.rows.length ∧
      (∀ i < sampleTable.rows.length,
        ((loadRows (update_excel_formatting sampleTable
            sampleSheet)).getD i []).take sampleTable.cols.length =
          sampleTable.rows.getD i [])) :=
  ⟨by decide, by decide,
    C1_value_fidelity sampleTable sampleSheet (by decide) (by decide)⟩

/-- C2: style preservation. For every edited table, every original sheet
and every surviving data row index `i < min(|rows|, original data rows)`,
every cell of sheet row `i + 2` keeps in the output exactly the style
reference it has in the original sheet: the value write never alters a
style reference. -/
theorem C2_style_preservation (T : Table) (D : Worksheet) (i : Nat)
    (hi : i < min T.rows.length (D.length - 1)) :
    ∀ j : Nat, cellStyle (update_excel_formatting T D) (i + 2) (j + 1) =
      cellStyle D (i + 2) (j + 1) := by
  intro j
  have hiN : i < T.rows.length := lt_of_lt_of_le hi (min_le_left _ _)
  show (getCell (update_excel_formatting T D) (i + 1) j).style =
    (getCell D (i + 1) j).style
  have h1 : getCell (update_excel_formatting T D) (i + 1) j =
      getCell (writeRows D 1 T.rows) (i + 1) j := by
    unfold getCell
    rw [getRow_update_excel T D (i + 1) (by omega)]
  rw [h1]
  exact style_writeRows T.rows D 1 (i + 1) j

/-- Witness for C2: the surviving data row of the concrete fixtures keeps
its style references. -/
theorem C2_style_preservation_witness :
    0 < min sampleTable.rows.length (sampleSheet.length - 1) ∧
    cellStyle (update_excel_formatting sampleTable sampleSheet) 2 1 =
      cellStyle sampleSheet 2 1 :=
  ⟨by decide, C2_style_preservation sampleTable sampleSheet 0 (by decide) 0⟩

/-- C3: shrink trims rows. When the original sheet's highest content row
exceeds `|rows| + 1`, the output's last row is `|rows| + 1` and every
sheet row beyond it is absent from the output. -/
theorem C3_shrink_trims (T : Table) (D : Worksheet)
    (h : T.rows.length + 1 < D.length) :
    (update_excel_formatting T D).length = T.rows.length + 1 ∧
    ∀ r : Nat, T.rows.length + 1 < r →
      (update_excel_formatting T D).getD (r - 1) [] = [] := by
  have hlen := length_update_excel T D (by omega)
  refine ⟨hlen, ?_⟩
  intro r hr
  apply List.getD_eq_default
  rw [hlen]
  omega

/-- Witness for C3: the two-data-row fixture sheet shrinks to one data
row. -/
theorem C3_shrink_trims_witness :
    sampleTable.rows.length + 1 < sampleSheet.length ∧
    ((update_excel_formatting sampleTable sampleSheet).length =
        sampleTable.rows.length + 1 ∧
      ∀ r : Nat, sampleTable.rows.length + 1 < r →
        (update_excel_formatting sampleTable sampleSheet).getD (r - 1) [] =
          []) :=
  ⟨by decide, C3_shrink_trims sampleTable sampleSheet (by decide)⟩

/-- C4: header row invariance. For every edited table and original sheet,
the writer never touches sheet row 1: the whole header row — values and
style references alike — is the original's. -/
theorem C4_header_invariance (T : Table) (D : Worksheet) :
    getRow (update_excel_formatting T D) 0 = getRow D 0 ∧
    ∀ c : Nat, cellValue (update_excel_formatting T D) 1 c =
        cellValue D 1 c ∧
      cellStyle (update_excel_formatting T D) 1 c = cellStyle D 1 c := by
  have hrow : getRow (update_excel_formatting T D) 0 = getRow D 0 := by
    rw [getRow_update_excel T D 0 (by omega)]
    exact getRow_writeRows_lt T.rows D 1 0 (by omega)
  refine ⟨hrow, ?_⟩
  intro c
  constructor
  · show (getCell (update_excel_formatting T D) 0 (c - 1)).value = _
    unfold getCell
    rw [hrow]
    rfl
  · show (getCell (update_excel_formatting T D) 0 (c - 1)).style = _
    unfold getCell
    rw [hrow]
    rfl

/-! ### Chart x-range (`draw_chart`, app.py lines 66-68) -/

/-- `data.min()` of a numeric series (`draw_chart` only ever receives at
least 2 values; the empty case is given an arbitrary result). -/
def seriesMin : List Int → Int
  | [] => 0
  | x :: xs => xs.foldl min x

/-- `data.max()` of a numeric series. -/
def seriesMax : List Int → Int
  | [] => 0
  | x :: xs => xs.foldl max x

/-- The x-range computed by `draw_chart`:
`xmin, xmax = data.min() - 5, data.max() + 5` followed by
`if xmax - xmin < 10: xmin -= 5; xmax += 5`. -/
def chartXRange (data : List Int) : Int × Int :=
  let xmin := seriesMin data - 5
  let xmax := seriesMax data + 5
  if xmax - xmin < 10 then (xmin - 5, xmax + 5) else (xmin, xmax)

theorem foldl_min_le_foldl_max :
    ∀ (xs : List Int) (a b : Int), a ≤ b →
      xs.foldl min a ≤ xs.foldl max b
  | [], _, _, h => h
  | x :: xs, a, b, h =>
    foldl_min_le_foldl_max xs (min a x) (max b x)
      (le_trans (min_le_left a x) (le_trans h (le_max_left b x)))

theorem seriesMin_le_seriesMax (data : List Int) (h : data ≠ []) :
    seriesMin data ≤ seriesMax data := by
  match data with
  | [] => exact absurd rfl h
  | x :: xs => exact foldl_min_le_foldl_max xs x x le_rfl

/-! ### Threshold counters (app.py lines 221-225) -/

/-- `fail_count = (clean_data < 60).sum()`: the comparison produces a
boolean series, whose sum counts the `True` entries. -/
def fail_count (data : List Int) : Nat :=
  (data.map (fun v => if v < 60 then (1 : Nat) else 0)).sum

/-- `exc_count = (clean_data > 90).sum()`. -/
def exc_count (data : List Int) : Nat :=
  (data.map (fun v => if v > 90 then (1 : Nat) else 0)).sum

/-- `fail_rate = fail_count / len(clean_data)`. -/
def fail_rate (data : List Int) : ℚ :=
  (fail_count data : ℚ) / (data.length : ℚ)

/-- `exc_rate = exc_count / len(clean_data)`. -/
def exc_rate (data : List Int) : ℚ :=
  (exc_count data : ℚ) / (data.length : ℚ)

theorem fail_count_eq_filter (data : List Int) :
    fail_count data = (data.filter (fun v => decide (v < 60))).length := by
  induction data with
  | nil => rfl
  | cons v rest ih =>
    simp only [fail_count, List.map_cons, List.sum_cons,
      List.filter_cons] at ih ⊢
    by_cases h : v < 60
    · simp [h, ih]
      omega
    · simp [h, ih]

theorem exc_count_eq_filter (data : List Int) :
    exc_count data = (data.filter (fun v => decide (v > 90))).length := by
  induction data with
  | nil => rfl
  | cons v rest ih =>
    simp only [exc_count, List.map_cons, List.sum_cons,
      List.filter_cons] at ih ⊢
    by_cases h : v > 90
    · simp [h, ih]
      omega
    · simp [h, ih]

/-! ### Numeric-column classification (app.py lines 150-161) -/

/-- Is a cell missing (pandas `NaN` / empty)? -/
def isMissing : Value → Bool
  | Value.empty => true
  | _ => false

/-- `series.dropna()`: the non-missing values of a column. -/
def dropna (col : List Value) : List Value :=
  col.filter (fun v => !(isMissing v))

/-- Is the character a decimal digit? -/
def isDigitChar (c : Char) : Bool :=
  decide ('0' ≤ c) && decide (c ≤ '9')

/-- Value of a digit string. -/
def digitsVal (cs : List Char) : Nat :=
  cs.foldl (fun a c => a * 10 + (c.toNat - 48)) 0

/-- Modelled from the spec: `pd.to_numeric`'s string coercion is library
code, not in `src/`; per the spec a text value either "parses as a number
without error" or disqualifies the column. We model the numeric literals
the program's data uses (optionally signed integer strings); any other
text (e.g. `"N/A"`) fails to coerce. -/
def parseIntString (s : String) : Option Int :=
  match s.toList with
  | [] => none
  | '-' :: rest =>
    if rest ≠ [] && rest.all isDigitChar then
      some (-(digitsVal rest : Int))
    else none
  | cs =>
    if cs.all isDigitChar then some ((digitsVal cs : Int)) else none

/-- `pd.to_numeric` on one cell: numbers pass through, missing stays
missing (NaN), text must parse as a number. -/
def to_numeric_cell : Value → Option Int
  | Value.num n => some n
  | Value.empty => none
  | Value.text s => parseIntString s

/-- Does `pd.to_numeric(·, errors='raise')` accept this cell without
raising? (Missing cells come back as NaN, not an error.) -/
def to_numeric_ok (v : Value) : Bool :=
  match v with
  | Value.empty => true
  | Value.num _ => true
  | Value.text s => (parseIntString s).isSome

/-- The per-column classification of the `score_cols` loop (app.py lines
155-161): `sample = df[col].dropna()`; the column is kept when
`len(sample) > 0` and `pd.to_numeric(sample, errors='raise')` does not
raise. -/
def isNumericCol (col : List Value) : Bool :=
  let sample := dropna col
  decide (sample.length > 0) && sample.all to_numeric_ok

/-- The numeric-compatibility predicate as C7's sentence states it:
every non-missing value of the column can be coerced to a number. -/
def specNumericCompatible (col : List Value) : Bool :=
  (dropna col).all to_numeric_ok

/-! ### Stream handling and one interaction pass -/

/-- The uploaded file object: an opaque parsed content plus the current
read position of the underlying byte stream. -/
structure FileStream where
  content : Worksheet
  pos : Nat
deriving DecidableEq, Repr

/-- `original_file_obj.seek(0)` (app.py line 102). -/
def seek0 (f : FileStream) : FileStream := { f with pos := 0 }

/-- `load_workbook(original_file_obj)` (app.py line 105): parsing reads
the stream from its current position and consumes it; a stream that is
not at its start yields a truncated byte sequence and fails to parse. -/
def load_workbook (f : FileStream) : Option Worksheet × FileStream :=
  if f.pos = 0 then
    (some f.content, { f with pos := f.content.length + 1 })
  else (none, f)

/-- `update_excel_formatting` including its stream handling (app.py lines
97-129): rewind, re-parse, then run the sheet-level core. -/
def update_excel_formatting_stream (df_new : Table) (f : FileStream) :
    Option Worksheet × FileStream :=
  let f0 := seek0 f
  match load_workbook f0 with
  | (some ws, f1) => (some (update_excel_formatting df_new ws), f1)
  | (none, f1) => (none, f1)

/-- `pd.to_numeric(df_edited[target_col], errors='coerce').dropna()`
(app.py line 203): non-coercible and missing entries are dropped. -/
def clean_data (col : List Value) : List Int :=
  col.filterMap to_numeric_cell

/-- Column `j` of the edited table, in row order. -/
def tableColumn (T : Table) (j : Nat) : List Value :=
  T.rows.map (fun r => r.getD j Value.empty)

/-- What one interaction pass shows (app.py lines 186-247). -/
structure InteractionView where
  final_buffer : Option Worksheet
  chart_shown : Bool
  warning_shown : Bool
deriving DecidableEq, Repr

/-- One interaction pass over the edited table: the export buffer is
computed unconditionally (app.py line 188, before the chart block); the
chart and the statistics render only when `len(clean_data) > 1`
(line 205), otherwise the warning of line 247 is shown. -/
def run_interaction (df_edited : Table) (uploaded : FileStream) (j : Nat) :
    InteractionView :=
  let final_buffer := (update_excel_formatting_stream df_edited uploaded).1
  let cd := clean_data (tableColumn df_edited j)
  if cd.length > 1 then
    { final_buffer := final_buffer, chart_shown := true,
      warning_shown := false }
  else
    { final_buffer := final_buffer, chart_shown := false,
      warning_shown := true }

/-- The uploaded stream of the concrete fixtures, at its start. -/
def sampleStream : FileStream := { content := sampleSheet, pos := 0 }

/-! ### Claims about the chart, statistics and classification -/

/-- C5 counterexample: the sample `[50, 52]` has at least 2 values and a
data span of `2 < 10`, yet `draw_chart` computes the x-range
`(45, 57) = (min - 5, max + 5)` and not the claimed
`(min - 10, max + 10) = (40, 62)`: the widening branch compares the
already-widened range (span + 10) against 10, so it cannot fire. -/
theorem C5_xrange_counterexample :
    seriesMax [(50 : Int), 52] - seriesMin [(50 : Int), 52] < 10 ∧
    chartXRange [(50 : Int), 52] = (45, 57) ∧
    chartXRange [(50 : Int), 52] ≠
      (seriesMin [(50 : Int), 52] - 10, seriesMax [(50 : Int), 52] + 10) := by
  decide

/-- C5 (amended): for every nonempty numeric data sequence the chart's
x-range is exactly `[min - 5, max + 5]`; the additional widening branch
tests the widened range `(max + 5) - (min - 5) = span + 10` against 10
and therefore never fires. -/
theorem C5_xrange_amended (data : List Int) (h : data ≠ []) :
    chartXRange data = (seriesMin data - 5, seriesMax data + 5) := by
  have hm := seriesMin_le_seriesMax data h
  unfold chartXRange
  rw [if_neg (by omega)]

/-- Witness for the amended C5 at the concrete sample `[50, 52]`. -/
theorem C5_xrange_amended_witness :
    ([(50 : Int), 52] ≠ ([] : List Int)) ∧
    chartXRange [(50 : Int), 52] =
      (seriesMin [(50 : Int), 52] - 5, seriesMax [(50 : Int), 52] + 5) :=
  ⟨by decide, C5_xrange_amended [(50 : Int), 52] (by decide)⟩

/-- C6: for every sample the failing count is the number of values
strictly below 60 and the excellent count the number strictly above 90;
on `[50, 59, 60, 90, 91, 100]` both counts are 2 with proportion `2/6`
(60 and 90 fall in neither category). -/
theorem C6_threshold_counts :
    (∀ data : List Int,
        fail_count data = (data.filter (fun v => decide (v < 60))).length ∧
        exc_count data = (data.filter (fun v => decide (v > 90))).length) ∧
    fail_count [50, 59, 60, 90, 91, 100] = 2 ∧
    exc_count [50, 59, 60, 90, 91, 100] = 2 ∧
    fail_rate [50, 59, 60, 90, 91, 100] = 2 / 6 ∧
    exc_rate [50, 59, 60, 90, 91, 100] = 2 / 6 := by
  refine ⟨fun data =>
    ⟨fail_count_eq_filter data, exc_count_eq_filter data⟩, ?_, ?_, ?_, ?_⟩
  · decide
  · decide
  · norm_num [fail_rate, fail_count]
  · norm_num [exc_rate, exc_count]

/-- C7 counterexample: for the all-missing column `[empty]` every
non-missing value (vacuously) coerces to a number, yet the classifier
rejects it because it also requires a nonempty non-missing sample
(`len(sample) > 0`): the claimed "if and only if" fails. -/
theorem C7_numeric_iff_counterexample :
    specNumericCompatible [Value.empty] = true ∧
    isNumericCol [Value.empty] = false := by
  decide

/-- C7 (amended): a column is classified numeric iff its non-missing
sample is nonempty and every non-missing value coerces; in particular
`[60, "N/A", 70]` is rejected and `[60, None, 70]` is accepted with
effective sample `[60, 70]`. -/
theorem C7_numeric_compat_amended :
    (∀ col : List Value,
        isNumericCol col =
          (decide ((dropna col).length > 0) && specNumericCompatible col)) ∧
    isNumericCol [Value.num 60, Value.text "N/A", Value.num 70] = false ∧
    isNumericCol [Value.num 60, Value.empty, Value.num 70] = true ∧
    dropna [Value.num 60, Value.empty, Value.num 70] =
      [Value.num 60, Value.num 70] := by
  refine ⟨fun col => rfl, ?_, ?_, ?_⟩
  · decide
  · decide
  · decide

/-- C8: whenever the selected column yields fewer than 2 valid numeric
values, the chart and statistics are skipped and the warning is shown,
while the export buffer is still produced from the edited table — and the
export does not depend on which column was selected at all. -/
theorem C8_insufficient_data (df_edited : Table) (uploaded : FileStream)
    (j : Nat) (h : (clean_data (tableColumn df_edited j)).length < 2) :
    (run_interaction df_edited uploaded j).chart_shown = false ∧
    (run_interaction df_edited uploaded j).warning_shown = true ∧
    (run_interaction df_edited uploaded j).final_buffer =
      (update_excel_formatting_stream df_edited uploaded).1 ∧
    ∀ k : Nat, (run_interaction df_edited uploaded k).final_buffer =
      (run_interaction df_edited uploaded j).final_buffer := by
  have hrun : run_interaction df_edited uploaded j =
      { final_buffer := (update_excel_formatting_stream df_edited
          uploaded).1,
        chart_shown := false, warning_shown := true } := by
    simp only [run_interaction]
    rw [if_neg (by omega)]
  refine ⟨by rw [hrun], by rw [hrun], by rw [hrun], ?_⟩
  intro k
  rw [hrun]
  simp only [run_interaction]
  by_cases hk : (clean_data (tableColumn df_edited k)).length > 1
  · rw [if_pos hk]
  · rw [if_neg hk]

/-- Witness for C8: column 0 of the one-row fixture table has a single
valid value, so the chart is skipped but the export is produced. -/
theorem C8_insufficient_data_witness :
    (clean_data (tableColumn sampleTable 0)).length < 2 ∧
    ((run_interaction sampleTable sampleStream 0).chart_shown = false ∧
      (run_interaction sampleTable sampleStream 0).warning_shown = true ∧
      (run_interaction sampleTable sampleStream 0).final_buffer =
        (update_excel_formatting_stream sampleTable sampleStream).1 ∧
      ∀ k : Nat, (run_interaction sampleTable sampleStream k).final_buffer =
        (run_interaction sampleTable sampleStream 0).final_buffer) :=
  ⟨by decide, C8_insufficient_data sampleTable sampleStream 0 (by decide)⟩

/-- C9: determinism and read-position independence of the writer. For a
fixed parsed content and a fixed edited table, the produced sheet is the
same whatever the stream's read position at call time (the call first
rewinds with `seek(0)`), it always parses successfully, and invoking the
writer again on the stream state the first call left behind returns the
same output. -/
theorem C9_read_position_independence (df_new : Table) (c : Worksheet)
    (p q : Nat) :
    (update_excel_formatting_stream df_new { content := c, pos := p }).1 =
      (update_excel_formatting_stream df_new { content := c, pos := q }).1 ∧
    (update_excel_formatting_stream df_new { content := c, pos := p }).1 =
      some (update_excel_formatting df_new c) ∧
    (update_excel_formatting_stream df_new
        ((update_excel_formatting_stream df_new
          { content := c, pos := p }).2)).1 =
      (update_excel_formatting_stream df_new { content := c, pos := p }).1 :=
  ⟨rfl, rfl, rfl⟩

/-- C10: a column whose values are all missing is never classified as a
numeric candidate: the coercion test runs only when the non-missing
sample is nonempty, so an entirely missing column is excluded. -/
theorem C10_all_missing_excluded (col : List Value)
    (h : ∀ v ∈ col, isMissing v = true) :
    isNumericCol col = false := by
  have hd : dropna col = [] := by
    unfold dropna
    rw [List.filter_eq_nil_iff]
    intro a ha
    rw [h a ha]
    decide
  simp [isNumericCol, hd]

/-- Witness for C10: the two-cell all-missing column is rejected. -/
theorem C10_all_missing_excluded_witness :
    (∀ v ∈ [Value.empty, Value.empty], isMissing v = true) ∧
    isNumericCol [Value.empty, Value.empty] = false :=
  ⟨by decide, C10_all_missing_excluded [Value.empty, Value.empty] (by decide)⟩

end GradeApp
